import Mathlib

/-! SMC-SellerService: the company workflow.

A shallow embedding of `internal/service/companies/service.go` and
`internal/integrations/userservice/{client,errors}.go`.

* Go `error` values are modelled by `GoError`; `nil` is `none` of `Option GoError`.
* A Go result pair `(value, error)` is modelled by `Except GoError value`: the source
  inspects `value` only after it has found `err == nil`.
* `int64` identifiers are `Int`; the code never does arithmetic on them.
* The store and the identity gateway are interfaces. Their methods are modelled as
  state-passing functions over an arbitrary world state `σ`.
* `context.Context` and logging are not modelled.
-/

namespace SellerService

/-! ## Go errors -/

/-- Package-level error variables. Every one of them is made by its own `errors.New`
call, so two of them are equal under `==` only when they are the same variable.
`other n` stands for any error value that comes from elsewhere (database driver,
`net/http`, `encoding/json`, ...). -/
inductive Sentinel where
  | userservice_ErrSuperUsersNotFound
  | userservice_ErrInternal
  | userservice_ErrInvalidResponse
  | userservice_ErrServiceDegraded
  | companies_ErrOnlySuperuser
  | companies_ErrAccessDenied
  | companies_ErrCompanyNotFound
  | companies_ErrInternal
  | companyRepo_ErrCompanyNotFound
  | other (n : Nat)
  deriving DecidableEq, Repr

/-- A Go error value.
* `new v` is the value held by the error variable `v`.
* `Errorf format w v` is `fmt.Errorf(format, w, v)` where `format` holds one `%w`
  (operand `w`) and one `%v` (operand `v`): only `w` is reachable through `Unwrap`,
  `v` contributes text only.
* `Errorf1 format w rest` is `fmt.Errorf(format, w, rest...)` where `format` holds one
  `%w` and the remaining operands are not errors (already rendered as text). -/
inductive GoError where
  | new (v : Sentinel)
  | Errorf (format : String) (w : GoError) (v : GoError)
  | Errorf1 (format : String) (w : GoError) (rest : List String)
  deriving DecidableEq, Repr

/-- The function `errors.Is(err, target)` for a target that is an error variable: walk the
`Unwrap` chain of `err` and compare each link with the target by `==`. A link made by
`fmt.Errorf` is never `==` to an `errors.New` value. Error types with an `Is` method of
their own, or that wrap several errors at once, do not occur in the given files and are
outside this model. -/
def errors.Is : GoError → Sentinel → Bool
  | .new v, target => decide (v = target)
  | .Errorf _ w _, target => errors.Is w target
  | .Errorf1 _ w _, target => errors.Is w target

/-! ## Go maps and `mergeManagerIDs` -/

/-- A Go `map[int64]bool`: an association list in which every key occurs once. -/
abbrev GoMap := List (Int × Bool)

/-- The assignment `m[k] = v`. -/
def GoMap.set : GoMap → Int → Bool → GoMap
  | [], k, v => [(k, v)]
  | (k0, v0) :: rest, k, v =>
    if k0 = k then (k, v) :: rest else (k0, v0) :: GoMap.set rest k v

/-- The keys held by a map. -/
def GoMap.keys (m : GoMap) : List Int := m.map Prod.fst

/-- The order in which one `for k := range m` statement visits the keys of a map. Go leaves
the order unspecified; every key is visited once. -/
structure RangeOrder where
  visit : List Int → List Int
  perm : ∀ l, List.Perm (visit l) l

/-- The keys are visited in the order in which they were first inserted. -/
def RangeOrder.insertion : RangeOrder := ⟨fun l => l, fun l => List.Perm.refl l⟩

/-- The keys are visited in the reverse of the order in which they were first inserted. -/
def RangeOrder.reversed : RangeOrder := ⟨List.reverse, fun l => List.reverse_perm l⟩

/-- The method `Service.mergeManagerIDs` (service.go, lines 56-72). -/
def mergeManagerIDs (ord : RangeOrder) (oldIds addIds : List Int) : List Int :=
  let managerIDsMap : GoMap := []
  let managerIDsMap := oldIds.foldl (fun m id => GoMap.set m id true) managerIDsMap
  let managerIDsMap := addIds.foldl (fun m id => GoMap.set m id true) managerIDsMap
  (ord.visit (GoMap.keys managerIDsMap)).foldl
    (fun mergedManagerIDs id => mergedManagerIDs ++ [id]) []

/-! ## Domain values

The packages `models` (requests, responses), `domain` (inputs, `Company`) and `service`
(the role constants) are not among the given files. -/

/-- Modelled from the spec: the domain value `CreateCompanyInput`, whose declaration is not
among the given files. service.go reads and assigns its field `ManagerIDs` (a `[]int64`);
`fields` stands for every other field it carries. -/
structure CreateCompanyInput (F : Type) where
  ManagerIDs : List Int
  fields : F
  deriving DecidableEq, Repr

/-- Modelled from the spec: the domain value `UpdateCompanyInput`, whose declaration is not
among the given files. service.go reads and assigns its field `ManagerIDs` (a `[]int64`);
`fields` stands for every other field it carries. -/
structure UpdateCompanyInput (F : Type) where
  ManagerIDs : List Int
  fields : F
  deriving DecidableEq, Repr

/-- Modelled from the spec: the domain value `Company`, whose declaration is not among the
given files. service.go reads its field `ManagerIDs` (a `[]int64`); `fields` stands for
every other field it carries. -/
structure Company (F : Type) where
  ManagerIDs : List Int
  fields : F
  deriving DecidableEq, Repr

/-- Modelled from the spec: the declarations that service.go uses and that are not among the
given files, taken as parameters: the constant `service.RoleSuperuser`, the request
translations `ToDomainCreateInput` and `ToDomainUpdateInput`, and the response projection
`models.FromDomainCompany`. -/
structure Decls (CreateReq UpdateReq Resp CF UF KF : Type) where
  RoleSuperuser : String
  ToDomainCreateInput : CreateReq → CreateCompanyInput CF
  ToDomainUpdateInput : UpdateReq → UpdateCompanyInput UF
  FromDomainCompany : Company KF → Resp

/-! ## Collaborators -/

/-- The interface `CompanyRepository` as service.go uses it (method `List` serves only
`Service.List`, which is left out). A method takes the world state and returns its Go
result with the next world state. -/
structure CompanyRepository (σ CF UF KF : Type) where
  Create : CreateCompanyInput CF → σ → Except GoError (Company KF) × σ
  GetByID : Int → σ → Except GoError (Company KF) × σ
  Update : Int → UpdateCompanyInput UF → σ → Except GoError (Company KF) × σ
  Delete : Int → σ → Option GoError × σ
  IsManager : Int → Int → σ → Except GoError Bool × σ

/-- The interface `UserServiceClient` as service.go uses it. -/
structure UserServiceClient (σ : Type) where
  GetSuperUsersWithGracefulDegradation : σ → Except GoError (List Int) × σ

/-- The struct `Service` (service.go, lines 14-17). -/
structure Service (σ CF UF KF : Type) where
  companyRepo : CompanyRepository σ CF UF KF
  userServiceClient : UserServiceClient σ

/-! ## The company service -/

section ServiceOps

variable {σ CreateReq UpdateReq Resp CF UF KF : Type}

/-- Lines 48-53 of `Service.Create`: hand the input to the store and project the result. -/
def Service.createStore (d : Decls CreateReq UpdateReq Resp CF UF KF) (s : Service σ CF UF KF)
    (input : CreateCompanyInput CF) (w : σ) : Except GoError Resp × σ :=
  match s.companyRepo.Create input w with
  | (.error err, w1) =>
    (.error (.Errorf "%w: Create - repository error: %v" (.new .companies_ErrInternal) err), w1)
  | (.ok company, w1) => (.ok (d.FromDomainCompany company), w1)

/-- The method `Service.Create` (service.go, lines 27-54). -/
def Service.Create (d : Decls CreateReq UpdateReq Resp CF UF KF) (ord : RangeOrder)
    (s : Service σ CF UF KF) (_userID : Int) (userRole : String) (req : CreateReq) (w : σ) :
    Except GoError Resp × σ :=
  if userRole ≠ d.RoleSuperuser then
    (.error (.new .companies_ErrOnlySuperuser), w)
  else
    let input := d.ToDomainCreateInput req
    match s.userServiceClient.GetSuperUsersWithGracefulDegradation w with
    | (.error err, w1) =>
      if (!errors.Is err .userservice_ErrSuperUsersNotFound &&
          !errors.Is err .userservice_ErrServiceDegraded) then
        (.error (.Errorf "%w: failed to get superusers: %v" (.new .companies_ErrInternal) err),
          w1)
      else
        Service.createStore d s input w1
    | (.ok superUsers, w1) =>
      Service.createStore d s
        { input with ManagerIDs := mergeManagerIDs ord input.ManagerIDs superUsers } w1

/-- The method `Service.GetByID` (service.go, lines 75-86). -/
def Service.GetByID (d : Decls CreateReq UpdateReq Resp CF UF KF) (s : Service σ CF UF KF)
    (id : Int) (w : σ) : Except GoError Resp × σ :=
  match s.companyRepo.GetByID id w with
  | (.error err, w1) =>
    if errors.Is err .companyRepo_ErrCompanyNotFound then
      (.error (.new .companies_ErrCompanyNotFound), w1)
    else
      (.error (.Errorf "%w: GetByID - repository error: %v" (.new .companies_ErrInternal) err),
        w1)
  | (.ok company, w1) => (.ok (d.FromDomainCompany company), w1)

/-- The method `Service.checkAccess` (service.go, lines 164-185). -/
def Service.checkAccess (d : Decls CreateReq UpdateReq Resp CF UF KF) (s : Service σ CF UF KF)
    (companyID userID : Int) (userRole : String) (w : σ) : Option GoError × σ :=
  if userRole = d.RoleSuperuser then
    (none, w)
  else
    match s.companyRepo.IsManager companyID userID w with
    | (.error err, w1) =>
      if errors.Is err .companyRepo_ErrCompanyNotFound then
        (some (.new .companies_ErrCompanyNotFound), w1)
      else
        (some (.Errorf "%w: checkAccess - repository error: %v" (.new .companies_ErrInternal)
          err), w1)
    | (.ok isManager, w1) =>
      if !isManager then (some (.new .companies_ErrAccessDenied), w1) else (none, w1)

/-- Lines 133-142 of `Service.Update`: hand the input to the store and project the result. -/
def Service.updateStore (d : Decls CreateReq UpdateReq Resp CF UF KF) (s : Service σ CF UF KF)
    (id : Int) (input : UpdateCompanyInput UF) (w : σ) : Except GoError Resp × σ :=
  match s.companyRepo.Update id input w with
  | (.error err, w1) =>
    if errors.Is err .companyRepo_ErrCompanyNotFound then
      (.error (.new .companies_ErrCompanyNotFound), w1)
    else
      (.error (.Errorf "%w: Update - repository error: %v" (.new .companies_ErrInternal) err),
        w1)
  | (.ok company, w1) => (.ok (d.FromDomainCompany company), w1)

/-- The method `Service.Update` (service.go, lines 100-143). -/
def Service.Update (d : Decls CreateReq UpdateReq Resp CF UF KF) (ord : RangeOrder)
    (s : Service σ CF UF KF) (id userID : Int) (userRole : String) (req : UpdateReq) (w : σ) :
    Except GoError Resp × σ :=
  match Service.checkAccess d s id userID userRole w with
  | (some err, w0) => (.error err, w0)
  | (none, w0) =>
    let input := d.ToDomainUpdateInput req
    match s.userServiceClient.GetSuperUsersWithGracefulDegradation w0 with
    | (.error err, w1) =>
      if (!errors.Is err .userservice_ErrSuperUsersNotFound &&
          !errors.Is err .userservice_ErrServiceDegraded) then
        (.error (.Errorf "%w: failed to get superusers: %v" (.new .companies_ErrInternal) err),
          w1)
      else
        Service.updateStore d s id input w1
    | (.ok superUsers, w1) =>
      if input.ManagerIDs.length > 0 then
        Service.updateStore d s id
          { input with ManagerIDs := mergeManagerIDs ord input.ManagerIDs superUsers } w1
      else if superUsers.length > 0 then
        match s.companyRepo.GetByID id w1 with
        | (.error err, w2) =>
          if errors.Is err .companyRepo_ErrCompanyNotFound then
            (.error (.new .companies_ErrCompanyNotFound), w2)
          else
            (.error (.Errorf "%w: Update - failed to get current company: %v"
              (.new .companies_ErrInternal) err), w2)
        | (.ok currentCompany, w2) =>
          Service.updateStore d s id
            { input with ManagerIDs := mergeManagerIDs ord currentCompany.ManagerIDs superUsers }
            w2
      else
        Service.updateStore d s id input w1

/-- The method `Service.Delete` (service.go, lines 146-161). -/
def Service.Delete (d : Decls CreateReq UpdateReq Resp CF UF KF) (s : Service σ CF UF KF)
    (id : Int) (_userID : Int) (userRole : String) (w : σ) : Option GoError × σ :=
  if userRole ≠ d.RoleSuperuser then
    (some (.new .companies_ErrOnlySuperuser), w)
  else
    match s.companyRepo.Delete id w with
    | (some err, w1) =>
      if errors.Is err .companyRepo_ErrCompanyNotFound then
        (some (.new .companies_ErrCompanyNotFound), w1)
      else
        (some (.Errorf "%w: Delete - repository error: %v" (.new .companies_ErrInternal) err),
          w1)
    | (none, w1) => (none, w1)

/-! ## Recording the calls made to the collaborators -/

/-- One call of a method of the store or of the identity gateway, with its arguments. -/
inductive Call (CF UF : Type) where
  | Create (input : CreateCompanyInput CF)
  | GetByID (id : Int)
  | Update (id : Int) (input : UpdateCompanyInput UF)
  | Delete (id : Int)
  | IsManager (companyID userID : Int)
  | GetSuperUsersWithGracefulDegradation
  deriving DecidableEq, Repr

/-- The same store, which also appends every call it receives to a log kept next to the
world state. -/
def CompanyRepository.recording (r : CompanyRepository σ CF UF KF) :
    CompanyRepository (σ × List (Call CF UF)) CF UF KF where
  Create := fun input st =>
    ((r.Create input st.1).1, ((r.Create input st.1).2, st.2 ++ [Call.Create input]))
  GetByID := fun id st =>
    ((r.GetByID id st.1).1, ((r.GetByID id st.1).2, st.2 ++ [Call.GetByID id]))
  Update := fun id input st =>
    ((r.Update id input st.1).1, ((r.Update id input st.1).2, st.2 ++ [Call.Update id input]))
  Delete := fun id st =>
    ((r.Delete id st.1).1, ((r.Delete id st.1).2, st.2 ++ [Call.Delete id]))
  IsManager := fun companyID userID st =>
    ((r.IsManager companyID userID st.1).1,
      ((r.IsManager companyID userID st.1).2, st.2 ++ [Call.IsManager companyID userID]))

/-- The same identity gateway, which also appends every call it receives to the log. -/
def UserServiceClient.recording (c : UserServiceClient σ) (CF UF : Type) :
    UserServiceClient (σ × List (Call CF UF)) where
  GetSuperUsersWithGracefulDegradation := fun st =>
    ((c.GetSuperUsersWithGracefulDegradation st.1).1,
      ((c.GetSuperUsersWithGracefulDegradation st.1).2,
        st.2 ++ [Call.GetSuperUsersWithGracefulDegradation]))

/-- The service wired to the recording collaborators. -/
def Service.recording (s : Service σ CF UF KF) : Service (σ × List (Call CF UF)) CF UF KF where
  companyRepo := s.companyRepo.recording
  userServiceClient := s.userServiceClient.recording CF UF

end ServiceOps

/-! ## The identity gateway client -/

/-- The struct `SuperUsersResponse` (models.go). -/
structure SuperUsersResponse where
  SuperUserIDs : List Int
  deriving DecidableEq, Repr

/-- The part of `http.Response` read by the client: the status code and the body. -/
structure HttpResponse where
  StatusCode : Int
  Body : String
  deriving DecidableEq, Repr

/-- The struct `Client` (client.go, lines 14-18) together with the library calls its methods
make: `http.NewRequestWithContext` (its error result, by method and url), the method `Do`
of the field `httpClient` (by method and url) and `json.NewDecoder(body).Decode`. The
field `log` is left out. -/
structure Client where
  baseURL : String
  NewRequestWithContext : String → String → Option GoError
  httpClientDo : String → String → Except GoError HttpResponse
  jsonDecode : String → Except GoError SuperUsersResponse

/-- The constant `http.StatusOK`. -/
def http.StatusOK : Int := 200

/-- The constant `http.StatusNotFound`. -/
def http.StatusNotFound : Int := 404

/-- The constant `http.MethodGet`. -/
def http.MethodGet : String := "GET"

/-- The method `Client.GetSuperUsers` (client.go, lines 32-66). -/
def Client.GetSuperUsers (c : Client) : Except GoError (List Int) :=
  let url := c.baseURL ++ "/internal/users/superusers"
  match c.NewRequestWithContext http.MethodGet url with
  | some err =>
    .error (.Errorf "%w: failed to create request: %v" (.new .userservice_ErrInternal) err)
  | none =>
    match c.httpClientDo http.MethodGet url with
    | .error err =>
      .error (.Errorf "%w: failed to execute request: %v" (.new .userservice_ErrInternal) err)
    | .ok resp =>
      if resp.StatusCode = http.StatusOK then
        match c.jsonDecode resp.Body with
        | .error err =>
          .error (.Errorf "%w: failed to decode response: %v"
            (.new .userservice_ErrInvalidResponse) err)
        | .ok response => .ok response.SuperUserIDs
      else if resp.StatusCode = http.StatusNotFound then
        .error (.new .userservice_ErrSuperUsersNotFound)
      else
        .error (.Errorf1 "%w: unexpected status code %d: %s"
          (.new .userservice_ErrInvalidResponse) [toString resp.StatusCode, resp.Body])

/-- The method `Client.GetSuperUsersWithGracefulDegradation` (client.go, lines 70-90). -/
def Client.GetSuperUsersWithGracefulDegradation (c : Client) : Except GoError (List Int) :=
  match c.GetSuperUsers with
  | .error err =>
    if errors.Is err .userservice_ErrSuperUsersNotFound then
      .error (.Errorf1 "userservice.client: GetSuperUsers failed - err: %w" err [])
    else
      .error (.Errorf "%w: %v" (.new .userservice_ErrServiceDegraded) err)
  | .ok superUsers => .ok superUsers

/-- The call `http.NewRequestWithContext` made by `GetSuperUsers` returns an error. -/
def Client.requestCreationFailed (c : Client) : Prop :=
  ∃ err, c.NewRequestWithContext http.MethodGet (c.baseURL ++ "/internal/users/superusers") =
    some err

/-- The request is created and the call `c.httpClient.Do` returns an error. -/
def Client.transportFailed (c : Client) : Prop :=
  c.NewRequestWithContext http.MethodGet (c.baseURL ++ "/internal/users/superusers") = none ∧
    ∃ err, c.httpClientDo http.MethodGet (c.baseURL ++ "/internal/users/superusers") =
      .error err

/-- The upstream answers with a status code other than 200 and 404. -/
def Client.unexpectedStatus (c : Client) : Prop :=
  c.NewRequestWithContext http.MethodGet (c.baseURL ++ "/internal/users/superusers") = none ∧
    ∃ resp, c.httpClientDo http.MethodGet (c.baseURL ++ "/internal/users/superusers") =
        .ok resp ∧
      resp.StatusCode ≠ http.StatusOK ∧ resp.StatusCode ≠ http.StatusNotFound

/-- The upstream answers with status 200 and a body that does not decode. -/
def Client.decodeFailed (c : Client) : Prop :=
  c.NewRequestWithContext http.MethodGet (c.baseURL ++ "/internal/users/superusers") = none ∧
    ∃ resp err, c.httpClientDo http.MethodGet (c.baseURL ++ "/internal/users/superusers") =
        .ok resp ∧
      resp.StatusCode = http.StatusOK ∧ c.jsonDecode resp.Body = .error err

/-! ## Concrete instances -/

/-- The world of the in-memory store: the stored companies, each an identifier with its
manager list. -/
abbrev MemWorld := List (Int × List Int)

/-- An in-memory store: a company is its identifier (in `fields`) and its manager list. -/
def memRepo : CompanyRepository MemWorld Unit Unit Int where
  Create := fun input w =>
    (.ok ⟨input.ManagerIDs, (w.length : Int) + 1⟩, w ++ [((w.length : Int) + 1, input.ManagerIDs)])
  GetByID := fun id w =>
    match w.lookup id with
    | some managers => (.ok ⟨managers, id⟩, w)
    | none => (.error (.new .companyRepo_ErrCompanyNotFound), w)
  Update := fun id input w =>
    match w.lookup id with
    | some _ =>
      (.ok ⟨input.ManagerIDs, id⟩, w.map (fun p => if p.1 = id then (id, input.ManagerIDs) else p))
    | none => (.error (.new .companyRepo_ErrCompanyNotFound), w)
  Delete := fun id w =>
    match w.lookup id with
    | some _ => (none, w.filter (fun p => p.1 ≠ id))
    | none => (some (.new .companyRepo_ErrCompanyNotFound), w)
  IsManager := fun companyID userID w =>
    match w.lookup companyID with
    | some managers => (.ok (decide (userID ∈ managers)), w)
    | none => (.error (.new .companyRepo_ErrCompanyNotFound), w)

/-- A store that holds no company at all: every lookup reports not-found. -/
def absentRepo : CompanyRepository Unit Unit Unit Int where
  Create := fun input w => (.ok ⟨input.ManagerIDs, 1⟩, w)
  GetByID := fun _ w => (.error (.new .companyRepo_ErrCompanyNotFound), w)
  Update := fun _ _ w => (.error (.new .companyRepo_ErrCompanyNotFound), w)
  Delete := fun _ w => (some (.new .companyRepo_ErrCompanyNotFound), w)
  IsManager := fun _ _ w => (.error (.new .companyRepo_ErrCompanyNotFound), w)

/-- An identity gateway that gives the same answer at every call. -/
def fixedGateway (σ : Type) (answer : Except GoError (List Int)) : UserServiceClient σ where
  GetSuperUsersWithGracefulDegradation := fun w => (answer, w)

/-- The in-memory store wired to a gateway with a fixed answer. -/
def memService (answer : Except GoError (List Int)) : Service MemWorld Unit Unit Int where
  companyRepo := memRepo
  userServiceClient := fixedGateway MemWorld answer

/-- The empty store wired to a gateway with a fixed answer. -/
def absentService (answer : Except GoError (List Int)) : Service Unit Unit Unit Int where
  companyRepo := absentRepo
  userServiceClient := fixedGateway Unit answer

/-- Modelled from the spec: the request translations and the response projection, whose code
is not among the given files, for the concrete instances. A request is its manager list
and the translation carries it into the input as it is; a response is the identifier of
the company with its manager list. -/
def memDecls : Decls (List Int) (List Int) (Int × List Int) Unit Unit Int where
  RoleSuperuser := "superuser"
  ToDomainCreateInput := fun managers => ⟨managers, ()⟩
  ToDomainUpdateInput := fun managers => ⟨managers, ()⟩
  FromDomainCompany := fun company => (company.fields, company.ManagerIDs)

/-- The error the client returns when the gateway is degraded by a transport failure. -/
def degradedError : GoError :=
  .Errorf "%w: %v" (.new .userservice_ErrServiceDegraded)
    (.Errorf "%w: failed to execute request: %v" (.new .userservice_ErrInternal)
      (.new (.other 0)))

/-- A client whose upstream answers with the given status code and body; the body decodes
to the list `[1, 2]`. -/
def stubClient (status : Int) : Client where
  baseURL := "http://userservice"
  NewRequestWithContext := fun _ _ => none
  httpClientDo := fun _ _ => .ok ⟨status, "body"⟩
  jsonDecode := fun _ => .ok ⟨[1, 2]⟩

/-! ## Lemmas on maps -/

theorem GoMap.mem_keys_set (m : GoMap) (k : Int) (v : Bool) (x : Int) :
    x ∈ GoMap.keys (GoMap.set m k v) ↔ x = k ∨ x ∈ GoMap.keys m := by
  induction m with
  | nil => simp [GoMap.set, GoMap.keys]
  | cons hd tl ih =>
    obtain ⟨k0, v0⟩ := hd
    by_cases h : k0 = k
    · subst h
      simp [GoMap.set, GoMap.keys]
    · simp only [GoMap.keys] at ih
      simp only [GoMap.set, h, if_false, GoMap.keys, List.map_cons, List.mem_cons, ih]
      tauto

theorem GoMap.nodup_keys_set (m : GoMap) (k : Int) (v : Bool)
    (h : (GoMap.keys m).Nodup) : (GoMap.keys (GoMap.set m k v)).Nodup := by
  induction m with
  | nil => simp [GoMap.set, GoMap.keys]
  | cons hd tl ih =>
    obtain ⟨k0, v0⟩ := hd
    have hcons : k0 ∉ GoMap.keys tl ∧ (GoMap.keys tl).Nodup := by
      simpa [GoMap.keys] using h
    by_cases hk : k0 = k
    · subst hk
      simpa [GoMap.set, GoMap.keys] using h
    · have hmem := GoMap.mem_keys_set tl k v k0
      have hnd := ih hcons.2
      simp only [GoMap.keys] at hmem hnd hcons
      simp only [GoMap.set, hk, if_false, GoMap.keys, List.map_cons, List.nodup_cons]
      exact ⟨by rw [hmem]; tauto, hnd⟩

theorem GoMap.mem_keys_foldl (ids : List Int) (m : GoMap) (x : Int) :
    x ∈ GoMap.keys (ids.foldl (fun m id => GoMap.set m id true) m) ↔
      x ∈ ids ∨ x ∈ GoMap.keys m := by
  induction ids generalizing m with
  | nil => simp
  | cons a tl ih =>
    rw [List.foldl_cons, ih, GoMap.mem_keys_set]
    simp only [List.mem_cons]
    tauto

theorem GoMap.nodup_keys_foldl (ids : List Int) (m : GoMap) (h : (GoMap.keys m).Nodup) :
    (GoMap.keys (ids.foldl (fun m id => GoMap.set m id true) m)).Nodup := by
  induction ids generalizing m with
  | nil => simpa using h
  | cons a tl ih =>
    rw [List.foldl_cons]
    exact ih _ (GoMap.nodup_keys_set m a true h)

theorem foldl_append_singleton (l acc : List Int) :
    l.foldl (fun merged id => merged ++ [id]) acc = acc ++ l := by
  induction l generalizing acc with
  | nil => simp
  | cons a tl ih => rw [List.foldl_cons, ih]; simp

theorem mergeManagerIDs_perm (ord : RangeOrder) (oldIds addIds : List Int) :
    List.Perm (mergeManagerIDs ord oldIds addIds)
      (GoMap.keys (addIds.foldl (fun m id => GoMap.set m id true)
        (oldIds.foldl (fun m id => GoMap.set m id true) []))) := by
  simp only [mergeManagerIDs, foldl_append_singleton, List.nil_append]
  exact ord.perm _

theorem mem_mergeManagerIDs (ord : RangeOrder) (oldIds addIds : List Int) (x : Int) :
    x ∈ mergeManagerIDs ord oldIds addIds ↔ x ∈ oldIds ∨ x ∈ addIds := by
  rw [(mergeManagerIDs_perm ord oldIds addIds).mem_iff, GoMap.mem_keys_foldl,
    GoMap.mem_keys_foldl]
  simp [GoMap.keys]
  tauto

theorem nodup_mergeManagerIDs (ord : RangeOrder) (oldIds addIds : List Int) :
    (mergeManagerIDs ord oldIds addIds).Nodup := by
  rw [(mergeManagerIDs_perm ord oldIds addIds).nodup_iff]
  apply GoMap.nodup_keys_foldl
  apply GoMap.nodup_keys_foldl
  simp [GoMap.keys]

/-- C1: for all manager-id lists A and B and every visiting order of the map,
`mergeManagerIDs A B` holds exactly the ids of A and of B (every id of either list occurs,
no other id occurs) and holds no id more than once. -/
theorem C1_mergeManagerIDs_union (ord : RangeOrder) (A B : List Int) :
    (∀ x, x ∈ mergeManagerIDs ord A B ↔ x ∈ A ∨ x ∈ B) ∧
    (∀ x, x ∈ A ∨ x ∈ B → (mergeManagerIDs ord A B).count x = 1) ∧
    (mergeManagerIDs ord A B).Nodup := by
  refine ⟨mem_mergeManagerIDs ord A B, ?_, nodup_mergeManagerIDs ord A B⟩
  intro x hx
  exact List.count_eq_one_of_mem (nodup_mergeManagerIDs ord A B)
    ((mem_mergeManagerIDs ord A B x).2 hx)

/-! ## The recording collaborators answer as the plain ones do -/

section Recording

variable {σ CreateReq UpdateReq Resp CF UF KF : Type}

theorem Service.createStore_recording (d : Decls CreateReq UpdateReq Resp CF UF KF)
    (s : Service σ CF UF KF) (input : CreateCompanyInput CF) (w : σ) (t : List (Call CF UF)) :
    Service.createStore d s.recording input (w, t) =
      ((Service.createStore d s input w).1,
        ((Service.createStore d s input w).2, t ++ [Call.Create input])) := by
  simp only [Service.createStore, Service.recording, CompanyRepository.recording]
  rcases h : s.companyRepo.Create input w with ⟨r, w1⟩
  cases r <;> simp

theorem Service.updateStore_recording (d : Decls CreateReq UpdateReq Resp CF UF KF)
    (s : Service σ CF UF KF) (id : Int) (input : UpdateCompanyInput UF) (w : σ)
    (t : List (Call CF UF)) :
    Service.updateStore d s.recording id input (w, t) =
      ((Service.updateStore d s id input w).1,
        ((Service.updateStore d s id input w).2, t ++ [Call.Update id input])) := by
  simp only [Service.updateStore, Service.recording, CompanyRepository.recording]
  rcases h : s.companyRepo.Update id input w with ⟨r, w1⟩
  cases r with
  | error err => by_cases hnf : errors.Is err .companyRepo_ErrCompanyNotFound = true <;> simp [hnf]
  | ok company => simp

theorem Service.checkAccess_recording (d : Decls CreateReq UpdateReq Resp CF UF KF)
    (s : Service σ CF UF KF) (companyID userID : Int) (userRole : String) (w : σ)
    (t : List (Call CF UF)) :
    Service.checkAccess d s.recording companyID userID userRole (w, t) =
      ((Service.checkAccess d s companyID userID userRole w).1,
        ((Service.checkAccess d s companyID userID userRole w).2,
          t ++ (if userRole = d.RoleSuperuser then [] else [Call.IsManager companyID userID]))) := by
  simp only [Service.checkAccess, Service.recording, CompanyRepository.recording]
  by_cases hr : userRole = d.RoleSuperuser
  · simp [hr]
  · rcases h : s.companyRepo.IsManager companyID userID w with ⟨r, w1⟩
    cases r with
    | error err =>
      by_cases hnf : errors.Is err .companyRepo_ErrCompanyNotFound = true <;> simp [hr, hnf]
    | ok isManager => cases isManager <;> simp [hr]

theorem Service.recording_gateway (s : Service σ CF UF KF) (w : σ) (t : List (Call CF UF)) :
    s.recording.userServiceClient.GetSuperUsersWithGracefulDegradation (w, t) =
      ((s.userServiceClient.GetSuperUsersWithGracefulDegradation w).1,
        ((s.userServiceClient.GetSuperUsersWithGracefulDegradation w).2,
          t ++ [Call.GetSuperUsersWithGracefulDegradation])) := rfl

theorem Service.recording_GetByID (s : Service σ CF UF KF) (id : Int) (w : σ)
    (t : List (Call CF UF)) :
    s.recording.companyRepo.GetByID id (w, t) =
      ((s.companyRepo.GetByID id w).1, ((s.companyRepo.GetByID id w).2, t ++ [Call.GetByID id])) :=
  rfl

theorem Service.recording_Delete (s : Service σ CF UF KF) (id : Int) (w : σ)
    (t : List (Call CF UF)) :
    s.recording.companyRepo.Delete id (w, t) =
      ((s.companyRepo.Delete id w).1, ((s.companyRepo.Delete id w).2, t ++ [Call.Delete id])) :=
  rfl

theorem Service.createStore_ok (d : Decls CreateReq UpdateReq Resp CF UF KF)
    (s : Service σ CF UF KF) (input : CreateCompanyInput CF) (w w1 : σ) (company : Company KF)
    (h : s.companyRepo.Create input w = (.ok company, w1)) :
    Service.createStore d s input w = (.ok (d.FromDomainCompany company), w1) := by
  simp [Service.createStore, h]

theorem Service.createStore_error (d : Decls CreateReq UpdateReq Resp CF UF KF)
    (s : Service σ CF UF KF) (input : CreateCompanyInput CF) (w w1 : σ) (err : GoError)
    (h : s.companyRepo.Create input w = (.error err, w1)) :
    Service.createStore d s input w =
      (.error (.Errorf "%w: Create - repository error: %v" (.new .companies_ErrInternal) err),
        w1) := by
  simp [Service.createStore, h]

theorem Service.Create_recording (d : Decls CreateReq UpdateReq Resp CF UF KF)
    (ord : RangeOrder) (s : Service σ CF UF KF) (userID : Int) (userRole : String)
    (req : CreateReq) (w : σ) (t : List (Call CF UF)) :
    (Service.Create d ord s.recording userID userRole req (w, t)).1 =
        (Service.Create d ord s userID userRole req w).1 ∧
      (Service.Create d ord s.recording userID userRole req (w, t)).2.1 =
        (Service.Create d ord s userID userRole req w).2 := by
  by_cases hrole : userRole = d.RoleSuperuser
  swap
  · simp [Service.Create, hrole]
  · rcases hg : s.userServiceClient.GetSuperUsersWithGracefulDegradation w with ⟨r, w1⟩
    cases r with
    | ok S =>
      simp [Service.Create, hrole, Service.recording_gateway, hg, Service.createStore_recording]
    | error e =>
      by_cases htol : (!errors.Is e .userservice_ErrSuperUsersNotFound &&
          !errors.Is e .userservice_ErrServiceDegraded) = true
      · simp [Service.Create, hrole, Service.recording_gateway, hg, htol]
      · simp [Service.Create, hrole, Service.recording_gateway, hg, htol,
          Service.createStore_recording]

theorem Service.Delete_recording (d : Decls CreateReq UpdateReq Resp CF UF KF)
    (s : Service σ CF UF KF) (id userID : Int) (userRole : String) (w : σ)
    (t : List (Call CF UF)) :
    (Service.Delete d s.recording id userID userRole (w, t)).1 =
        (Service.Delete d s id userID userRole w).1 ∧
      (Service.Delete d s.recording id userID userRole (w, t)).2.1 =
        (Service.Delete d s id userID userRole w).2 := by
  by_cases hrole : userRole = d.RoleSuperuser
  swap
  · simp [Service.Delete, hrole]
  · rcases hd : s.companyRepo.Delete id w with ⟨r, w1⟩
    cases r with
    | none => simp [Service.Delete, hrole, Service.recording_Delete, hd]
    | some e =>
      by_cases hnf : errors.Is e .companyRepo_ErrCompanyNotFound = true <;>
        simp [Service.Delete, hrole, Service.recording_Delete, hd, hnf]

theorem Service.Update_recording (d : Decls CreateReq UpdateReq Resp CF UF KF)
    (ord : RangeOrder) (s : Service σ CF UF KF) (id userID : Int) (userRole : String)
    (req : UpdateReq) (w : σ) (t : List (Call CF UF)) :
    (Service.Update d ord s.recording id userID userRole req (w, t)).1 =
        (Service.Update d ord s id userID userRole req w).1 ∧
      (Service.Update d ord s.recording id userID userRole req (w, t)).2.1 =
        (Service.Update d ord s id userID userRole req w).2 := by
  rcases hacc : Service.checkAccess d s id userID userRole w with ⟨a, w0⟩
  cases a with
  | some err => simp [Service.Update, Service.checkAccess_recording, hacc]
  | none =>
    rcases hg : s.userServiceClient.GetSuperUsersWithGracefulDegradation w0 with ⟨r, w1⟩
    cases r with
    | error e =>
      by_cases htol : (!errors.Is e .userservice_ErrSuperUsersNotFound &&
          !errors.Is e .userservice_ErrServiceDegraded) = true
      · simp [Service.Update, Service.checkAccess_recording, hacc, Service.recording_gateway,
          hg, htol]
      · simp [Service.Update, Service.checkAccess_recording, hacc, Service.recording_gateway,
          hg, htol, Service.updateStore_recording]
    | ok S =>
      by_cases h1 : (d.ToDomainUpdateInput req).ManagerIDs.length > 0
      · simp [Service.Update, Service.checkAccess_recording, hacc, Service.recording_gateway,
          hg, h1, Service.updateStore_recording]
      · by_cases h2 : S.length > 0
        · rcases hget : s.companyRepo.GetByID id w1 with ⟨g, w2⟩
          cases g with
          | ok cur =>
            simp [Service.Update, Service.checkAccess_recording, hacc,
              Service.recording_gateway, hg, h1, h2, Service.recording_GetByID, hget,
              Service.updateStore_recording]
          | error e =>
            by_cases hnf : errors.Is e .companyRepo_ErrCompanyNotFound = true <;>
              simp [Service.Update, Service.checkAccess_recording, hacc,
                Service.recording_gateway, hg, h1, h2, Service.recording_GetByID, hget, hnf]
        · simp [Service.Update, Service.checkAccess_recording, hacc,
            Service.recording_gateway, hg, h1, h2, Service.updateStore_recording]

end Recording

/-! ## Claims -/

section Claims

variable {σ CreateReq UpdateReq Resp CF UF KF : Type}

/-- C2: when a Superuser calls Create and the identity gateway answers a list S without
error, the store receives exactly one call of Create (after the one gateway call), its
manager list is the merge of the caller's list M with S, which holds exactly the ids of
M and S, each once; and if the store answers a company, Create returns its projection. -/
theorem C2_Create_enriches (d : Decls CreateReq UpdateReq Resp CF UF KF) (ord : RangeOrder)
    (s : Service σ CF UF KF) (userID : Int) (userRole : String) (req : CreateReq) (w w1 : σ)
    (S : List Int) (hrole : userRole = d.RoleSuperuser)
    (hgw : s.userServiceClient.GetSuperUsersWithGracefulDegradation w = (.ok S, w1)) :
    (Service.Create d ord s.recording userID userRole req (w, [])).2.2 =
        [Call.GetSuperUsersWithGracefulDegradation,
          Call.Create { d.ToDomainCreateInput req with
            ManagerIDs := mergeManagerIDs ord (d.ToDomainCreateInput req).ManagerIDs S }] ∧
      (∀ x, x ∈ mergeManagerIDs ord (d.ToDomainCreateInput req).ManagerIDs S ↔
        x ∈ (d.ToDomainCreateInput req).ManagerIDs ∨ x ∈ S) ∧
      (mergeManagerIDs ord (d.ToDomainCreateInput req).ManagerIDs S).Nodup ∧
      (∀ (company : Company KF) (w2 : σ),
        s.companyRepo.Create { d.ToDomainCreateInput req with
            ManagerIDs := mergeManagerIDs ord (d.ToDomainCreateInput req).ManagerIDs S } w1 =
          (.ok company, w2) →
        Service.Create d ord s userID userRole req w = (.ok (d.FromDomainCompany company), w2)) := by
  refine ⟨?_, mem_mergeManagerIDs ord _ S, nodup_mergeManagerIDs ord _ S, ?_⟩
  · simp [Service.Create, hrole, Service.recording_gateway, hgw, Service.createStore_recording]
  · intro company w2 hst
    simp [Service.Create, hrole, hgw, Service.createStore_ok d s _ w1 w2 company hst]

/-- C3: when a Superuser calls Create and the identity gateway answers an error that is
ServiceDegraded or SuperUsersNotFound, the store still receives one call of Create, with
the input exactly as translated from the request (manager list untouched), and the
result of Create is the store's: the projection of the company on success, an Internal
error on failure. -/
theorem C3_Create_degraded (d : Decls CreateReq UpdateReq Resp CF UF KF) (ord : RangeOrder)
    (s : Service σ CF UF KF) (userID : Int) (userRole : String) (req : CreateReq) (w w1 : σ)
    (e : GoError) (hrole : userRole = d.RoleSuperuser)
    (hgw : s.userServiceClient.GetSuperUsersWithGracefulDegradation w = (.error e, w1))
    (he : errors.Is e .userservice_ErrServiceDegraded = true ∨
      errors.Is e .userservice_ErrSuperUsersNotFound = true) :
    (Service.Create d ord s.recording userID userRole req (w, [])).2.2 =
        [Call.GetSuperUsersWithGracefulDegradation, Call.Create (d.ToDomainCreateInput req)] ∧
      (∀ (company : Company KF) (w2 : σ),
        s.companyRepo.Create (d.ToDomainCreateInput req) w1 = (.ok company, w2) →
        Service.Create d ord s userID userRole req w = (.ok (d.FromDomainCompany company), w2)) ∧
      (∀ (err : GoError) (w2 : σ),
        s.companyRepo.Create (d.ToDomainCreateInput req) w1 = (.error err, w2) →
        ∃ r, Service.Create d ord s userID userRole req w = (.error r, w2) ∧
          errors.Is r .companies_ErrInternal = true) := by
  have htol : (!errors.Is e .userservice_ErrSuperUsersNotFound &&
      !errors.Is e .userservice_ErrServiceDegraded) = false := by
    rcases he with h | h <;> simp [h]
  refine ⟨?_, ?_, ?_⟩
  · simp [Service.Create, hrole, Service.recording_gateway, hgw, htol,
      Service.createStore_recording]
  · intro company w2 hst
    simp [Service.Create, hrole, hgw, htol, Service.createStore_ok d s _ w1 w2 company hst]
  · intro err w2 hst
    refine ⟨.Errorf "%w: Create - repository error: %v" (.new .companies_ErrInternal) err,
      ?_, ?_⟩
    · simp [Service.Create, hrole, hgw, htol, Service.createStore_error d s _ w1 w2 err hst]
    · simp [errors.Is]

/-- C4: an Update call that passes the access check, whose request carries no manager list,
and for which the identity gateway answers a non-empty list S. If the store's GetByID
answers the current company, the store's Update receives the merge of the company's
current managers with S, which holds exactly the ids of both, each once, and the calls
made are: the access query (for a non-superuser), the gateway, GetByID, Update. If GetByID
answers a not-found error, Update fails with CompanyNotFound and the store's Update is
not called. -/
theorem C4_Update_merges_current (d : Decls CreateReq UpdateReq Resp CF UF KF)
    (ord : RangeOrder) (s : Service σ CF UF KF) (id userID : Int) (userRole : String)
    (req : UpdateReq) (w w0 w1 : σ) (S : List Int)
    (hacc : Service.checkAccess d s id userID userRole w = (none, w0))
    (hreq : (d.ToDomainUpdateInput req).ManagerIDs = [])
    (hgw : s.userServiceClient.GetSuperUsersWithGracefulDegradation w0 = (.ok S, w1))
    (hS : S ≠ []) :
    (∀ (cur : Company KF) (w2 : σ), s.companyRepo.GetByID id w1 = (.ok cur, w2) →
      (Service.Update d ord s.recording id userID userRole req (w, [])).2.2 =
          (if userRole = d.RoleSuperuser then [] else [Call.IsManager id userID]) ++
            [Call.GetSuperUsersWithGracefulDegradation, Call.GetByID id,
              Call.Update id { d.ToDomainUpdateInput req with
                ManagerIDs := mergeManagerIDs ord cur.ManagerIDs S }] ∧
        (∀ x, x ∈ mergeManagerIDs ord cur.ManagerIDs S ↔ x ∈ cur.ManagerIDs ∨ x ∈ S) ∧
        (mergeManagerIDs ord cur.ManagerIDs S).Nodup ∧
        Service.Update d ord s id userID userRole req w =
          Service.updateStore d s id { d.ToDomainUpdateInput req with
            ManagerIDs := mergeManagerIDs ord cur.ManagerIDs S } w2) ∧
    (∀ (e : GoError) (w2 : σ), s.companyRepo.GetByID id w1 = (.error e, w2) →
      errors.Is e .companyRepo_ErrCompanyNotFound = true →
      Service.Update d ord s id userID userRole req w =
          (.error (.new .companies_ErrCompanyNotFound), w2) ∧
        (Service.Update d ord s.recording id userID userRole req (w, [])).2.2 =
          (if userRole = d.RoleSuperuser then [] else [Call.IsManager id userID]) ++
            [Call.GetSuperUsersWithGracefulDegradation, Call.GetByID id]) := by
  have hS1 : S.length > 0 := List.length_pos.mpr hS
  refine ⟨?_, ?_⟩
  · intro cur w2 hget
    refine ⟨?_, mem_mergeManagerIDs ord _ S, nodup_mergeManagerIDs ord _ S, ?_⟩
    · simp [Service.Update, Service.checkAccess_recording, hacc, Service.recording_gateway,
        hgw, hreq, hS1, Service.recording_GetByID, hget, Service.updateStore_recording]
    · simp [Service.Update, hacc, hgw, hreq, hS1, hget]
  · intro e w2 hget hnf
    refine ⟨?_, ?_⟩
    · simp [Service.Update, hacc, hgw, hreq, hS1, hget, hnf]
    · simp [Service.Update, Service.checkAccess_recording, hacc, Service.recording_gateway,
        hgw, hreq, hS1, Service.recording_GetByID, hget, hnf]

/-- C5: when the actor's role is not Superuser and the store's IsManager answers false
without error, Update fails with AccessDenied, and the only call made to the store or
the gateway is that IsManager query: no Update, no GetByID, no gateway call. -/
theorem C5_Update_access_denied (d : Decls CreateReq UpdateReq Resp CF UF KF)
    (ord : RangeOrder) (s : Service σ CF UF KF) (id userID : Int) (userRole : String)
    (req : UpdateReq) (w w0 : σ) (hrole : userRole ≠ d.RoleSuperuser)
    (hman : s.companyRepo.IsManager id userID w = (.ok false, w0)) :
    Service.Update d ord s id userID userRole req w =
        (.error (.new .companies_ErrAccessDenied), w0) ∧
      (Service.Update d ord s.recording id userID userRole req (w, [])).2.2 =
        [Call.IsManager id userID] := by
  have hacc : Service.checkAccess d s id userID userRole w =
      (some (.new .companies_ErrAccessDenied), w0) := by
    simp [Service.checkAccess, hrole, hman]
  refine ⟨?_, ?_⟩
  · simp [Service.Update, hacc]
  · simp [Service.Update, Service.checkAccess_recording, hacc, hrole]

/-- C6: for every actor whose role is not the Superuser constant, Create and Delete each
fail with exactly OnlySuperuser, leave the world untouched, and call neither the store
nor the identity gateway. -/
theorem C6_Create_Delete_superuser_only (d : Decls CreateReq UpdateReq Resp CF UF KF)
    (ord : RangeOrder) (s : Service σ CF UF KF) (id userID : Int) (userRole : String)
    (req : CreateReq) (w : σ) (hrole : userRole ≠ d.RoleSuperuser) :
    Service.Create d ord s userID userRole req w =
        (.error (.new .companies_ErrOnlySuperuser), w) ∧
      (Service.Create d ord s.recording userID userRole req (w, [])).2.2 = [] ∧
      Service.Delete d s id userID userRole w = (some (.new .companies_ErrOnlySuperuser), w) ∧
      (Service.Delete d s.recording id userID userRole (w, [])).2.2 = [] := by
  simp [Service.Create, Service.Delete, hrole]

/-- C7: a company id that is absent from the store, read at the states the operations reach:
at the start state the store's GetByID, Delete and IsManager answer a not-found error
for the id, and at the state left by the gateway call the store's GetByID and Update
do; the gateway's error at the start state, if any, is SuperUsersNotFound or
ServiceDegraded. Then GetByID fails with CompanyNotFound, Delete by a Superuser fails
with CompanyNotFound, and Update fails with CompanyNotFound for every actor, role,
request and map order. -/
theorem C7_absent_company (d : Decls CreateReq UpdateReq Resp CF UF KF)
    (s : Service σ CF UF KF) (id : Int) (w : σ)
    (hget : ∃ e w1, s.companyRepo.GetByID id w = (.error e, w1) ∧
      errors.Is e .companyRepo_ErrCompanyNotFound = true)
    (hdel : ∃ e w1, s.companyRepo.Delete id w = (some e, w1) ∧
      errors.Is e .companyRepo_ErrCompanyNotFound = true)
    (hman : ∀ userID, ∃ e w1, s.companyRepo.IsManager id userID w = (.error e, w1) ∧
      errors.Is e .companyRepo_ErrCompanyNotFound = true)
    (hgw : ∀ e, (s.userServiceClient.GetSuperUsersWithGracefulDegradation w).1 = .error e →
      errors.Is e .userservice_ErrSuperUsersNotFound = true ∨
        errors.Is e .userservice_ErrServiceDegraded = true)
    (hget1 : ∃ e w2,
      s.companyRepo.GetByID id (s.userServiceClient.GetSuperUsersWithGracefulDegradation w).2 =
        (.error e, w2) ∧
      errors.Is e .companyRepo_ErrCompanyNotFound = true)
    (hupd1 : ∀ input, ∃ e w2,
      s.companyRepo.Update id input
          (s.userServiceClient.GetSuperUsersWithGracefulDegradation w).2 = (.error e, w2) ∧
      errors.Is e .companyRepo_ErrCompanyNotFound = true) :
    (Service.GetByID d s id w).1 = .error (.new .companies_ErrCompanyNotFound) ∧
      (∀ userID, (Service.Delete d s id userID d.RoleSuperuser w).1 =
        some (.new .companies_ErrCompanyNotFound)) ∧
      (∀ ord userID userRole req, (Service.Update d ord s id userID userRole req w).1 =
        .error (.new .companies_ErrCompanyNotFound)) := by
  refine ⟨?_, ?_, ?_⟩
  · obtain ⟨e, w1, h, hnf⟩ := hget
    simp [Service.GetByID, h, hnf]
  · intro userID
    obtain ⟨e, w1, h, hnf⟩ := hdel
    simp [Service.Delete, h, hnf]
  · intro ord userID userRole req
    by_cases hrole : userRole = d.RoleSuperuser
    swap
    · obtain ⟨e, w1, h, hnf⟩ := hman userID
      simp [Service.Update, Service.checkAccess, hrole, h, hnf]
    · have hacc : Service.checkAccess d s id userID userRole w = (none, w) := by
        simp [Service.checkAccess, hrole]
      simp only [Service.Update, hacc]
      rcases hg : s.userServiceClient.GetSuperUsersWithGracefulDegradation w with ⟨r, w1⟩
      rw [hg] at hgw hget1 hupd1
      have hstore : ∀ input, (Service.updateStore d s id input w1).1 =
          .error (.new .companies_ErrCompanyNotFound) := by
        intro input
        obtain ⟨e, w2, h, hnf⟩ := hupd1 input
        simp [Service.updateStore, h, hnf]
      cases r with
      | error e =>
        have htol : (!errors.Is e .userservice_ErrSuperUsersNotFound &&
            !errors.Is e .userservice_ErrServiceDegraded) = false := by
          rcases hgw e rfl with h | h <;> simp [h]
        simp [htol, hstore]
      | ok S =>
        by_cases h1 : (d.ToDomainUpdateInput req).ManagerIDs.length > 0
        · simp [h1, hstore]
        · by_cases h2 : S.length > 0
          · obtain ⟨e, w2, h, hnf⟩ := hget1
            simp [h1, h2, h, hnf]
          · simp [h1, h2, hstore]

/-- C9: the decision table of checkAccess. A Superuser is allowed and the store is not
queried. For any other role the store's IsManager is queried once and decides: a
not-found error gives CompanyNotFound, any other error gives an error that is Internal
(and is not CompanyNotFound), false gives AccessDenied, true allows. -/
theorem C9_checkAccess_table (d : Decls CreateReq UpdateReq Resp CF UF KF)
    (s : Service σ CF UF KF) (companyID userID : Int) (userRole : String) (w : σ) :
    (userRole = d.RoleSuperuser →
      Service.checkAccess d s companyID userID userRole w = (none, w) ∧
      (Service.checkAccess d s.recording companyID userID userRole (w, [])).2.2 = []) ∧
    (userRole ≠ d.RoleSuperuser →
      (Service.checkAccess d s.recording companyID userID userRole (w, [])).2.2 =
          [Call.IsManager companyID userID] ∧
        (∀ e w1, s.companyRepo.IsManager companyID userID w = (.error e, w1) →
          errors.Is e .companyRepo_ErrCompanyNotFound = true →
          Service.checkAccess d s companyID userID userRole w =
            (some (.new .companies_ErrCompanyNotFound), w1)) ∧
        (∀ e w1, s.companyRepo.IsManager companyID userID w = (.error e, w1) →
          errors.Is e .companyRepo_ErrCompanyNotFound = false →
          ∃ r, Service.checkAccess d s companyID userID userRole w = (some r, w1) ∧
            errors.Is r .companies_ErrInternal = true ∧
            errors.Is r .companies_ErrCompanyNotFound = false ∧
            errors.Is r .companies_ErrAccessDenied = false) ∧
        (∀ w1, s.companyRepo.IsManager companyID userID w = (.ok false, w1) →
          Service.checkAccess d s companyID userID userRole w =
            (some (.new .companies_ErrAccessDenied), w1)) ∧
        (∀ w1, s.companyRepo.IsManager companyID userID w = (.ok true, w1) →
          Service.checkAccess d s companyID userID userRole w = (none, w1))) := by
  refine ⟨?_, ?_⟩
  · intro hrole
    simp [Service.checkAccess, hrole]
  · intro hrole
    refine ⟨?_, ?_, ?_, ?_, ?_⟩
    · simp [Service.checkAccess_recording, hrole]
    · intro e w1 h hnf
      simp [Service.checkAccess, hrole, h, hnf]
    · intro e w1 h hnf
      refine ⟨.Errorf "%w: checkAccess - repository error: %v" (.new .companies_ErrInternal) e,
        ?_, ?_, ?_, ?_⟩
      · simp [Service.checkAccess, hrole, h, hnf]
      · simp [errors.Is]
      · simp [errors.Is]
      · simp [errors.Is]
    · intro w1 h
      simp [Service.checkAccess, hrole, h]
    · intro w1 h
      simp [Service.checkAccess, hrole, h]

/-- Every error of GetSuperUsers is either the variable ErrSuperUsersNotFound itself or an
error that is neither SuperUsersNotFound nor ServiceDegraded. -/
theorem Client.GetSuperUsers_error (c : Client) (e : GoError)
    (h : c.GetSuperUsers = .error e) :
    e = .new .userservice_ErrSuperUsersNotFound ∨
      (errors.Is e .userservice_ErrSuperUsersNotFound = false ∧
        errors.Is e .userservice_ErrServiceDegraded = false) := by
  unfold Client.GetSuperUsers at h
  simp only at h
  split at h
  · injection h with h; subst h; right; simp [errors.Is]
  · split at h
    · injection h with h; subst h; right; simp [errors.Is]
    · split at h
      · split at h
        · injection h with h; subst h; right; simp [errors.Is]
        · cases h
      · split at h
        · injection h with h; subst h; left; rfl
        · injection h with h; subst h; right; simp [errors.Is]

/-- A failure of GetSuperUsers to create the request, to execute it, on an unexpected status
or on decoding gives an error that is not SuperUsersNotFound. -/
theorem Client.GetSuperUsers_failure_class (c : Client) (e : GoError)
    (h : c.GetSuperUsers = .error e)
    (hc : Client.requestCreationFailed c ∨ Client.transportFailed c ∨
      Client.unexpectedStatus c ∨ Client.decodeFailed c) :
    errors.Is e .userservice_ErrSuperUsersNotFound = false := by
  rcases hc with ⟨err, h1⟩ | ⟨h1, err, h2⟩ | ⟨h1, resp, h2, h3, h4⟩ | ⟨h1, resp, err, h2, h3, h4⟩
  · simp [Client.GetSuperUsers, h1] at h
    subst h
    simp [errors.Is]
  · simp [Client.GetSuperUsers, h1, h2] at h
    subst h
    simp [errors.Is]
  · simp [Client.GetSuperUsers, h1, h2, h3, h4] at h
    subst h
    simp [errors.Is]
  · simp [Client.GetSuperUsers, h1, h2, h3, h4] at h
    subst h
    simp [errors.Is]

/-- C10: GetSuperUsersWithGracefulDegradation has three outcomes. On success of GetSuperUsers
it returns the same list with no error. If the error of GetSuperUsers is
SuperUsersNotFound it returns an error that is SuperUsersNotFound and not
ServiceDegraded. For every other error it returns an error that is ServiceDegraded and
not SuperUsersNotFound. Hence every error it returns is SuperUsersNotFound or
ServiceDegraded, never both. The errors of request creation, of transport, of an
unexpected status and of decoding are among those other errors. -/
theorem C10_graceful_degradation (c : Client) :
    (∀ l, c.GetSuperUsers = .ok l → c.GetSuperUsersWithGracefulDegradation = .ok l) ∧
    (∀ e, c.GetSuperUsers = .error e → errors.Is e .userservice_ErrSuperUsersNotFound = true →
      ∃ r, c.GetSuperUsersWithGracefulDegradation = .error r ∧
        errors.Is r .userservice_ErrSuperUsersNotFound = true ∧
        errors.Is r .userservice_ErrServiceDegraded = false) ∧
    (∀ e, c.GetSuperUsers = .error e → errors.Is e .userservice_ErrSuperUsersNotFound = false →
      ∃ r, c.GetSuperUsersWithGracefulDegradation = .error r ∧
        errors.Is r .userservice_ErrServiceDegraded = true ∧
        errors.Is r .userservice_ErrSuperUsersNotFound = false) ∧
    (∀ r, c.GetSuperUsersWithGracefulDegradation = .error r →
      (errors.Is r .userservice_ErrSuperUsersNotFound = true ∧
          errors.Is r .userservice_ErrServiceDegraded = false) ∨
        (errors.Is r .userservice_ErrServiceDegraded = true ∧
          errors.Is r .userservice_ErrSuperUsersNotFound = false)) ∧
    (∀ e, c.GetSuperUsers = .error e →
      Client.requestCreationFailed c ∨ Client.transportFailed c ∨ Client.unexpectedStatus c ∨
        Client.decodeFailed c →
      errors.Is e .userservice_ErrSuperUsersNotFound = false) := by
  have hnf : ∀ e, c.GetSuperUsers = .error e →
      errors.Is e .userservice_ErrSuperUsersNotFound = true →
      c.GetSuperUsersWithGracefulDegradation =
          .error (.Errorf1 "userservice.client: GetSuperUsers failed - err: %w" e []) ∧
        errors.Is e .userservice_ErrServiceDegraded = false := by
    intro e he his
    refine ⟨by simp [Client.GetSuperUsersWithGracefulDegradation, he, his], ?_⟩
    rcases Client.GetSuperUsers_error c e he with h | h
    · subst h; simp [errors.Is]
    · exact h.2
  have hdeg : ∀ e, c.GetSuperUsers = .error e →
      errors.Is e .userservice_ErrSuperUsersNotFound = false →
      c.GetSuperUsersWithGracefulDegradation =
        .error (.Errorf "%w: %v" (.new .userservice_ErrServiceDegraded) e) := by
    intro e he his
    simp [Client.GetSuperUsersWithGracefulDegradation, he, his]
  refine ⟨?_, ?_, ?_, ?_, Client.GetSuperUsers_failure_class c⟩
  · intro l hl
    simp [Client.GetSuperUsersWithGracefulDegradation, hl]
  · intro e he his
    exact ⟨_, (hnf e he his).1, by simpa [errors.Is] using his, by
      simpa [errors.Is] using (hnf e he his).2⟩
  · intro e he his
    exact ⟨_, hdeg e he his, by simp [errors.Is], by simp [errors.Is]⟩
  · intro r hr
    rcases hg : c.GetSuperUsers with e | l
    · by_cases his : errors.Is e .userservice_ErrSuperUsersNotFound = true
      · have h := hnf e hg his
        rw [h.1] at hr
        injection hr with hr
        subst hr
        left
        exact ⟨by simpa [errors.Is] using his, by simpa [errors.Is] using h.2⟩
      · have his : errors.Is e .userservice_ErrSuperUsersNotFound = false := by simpa using his
        rw [hdeg e hg his] at hr
        injection hr with hr
        subst hr
        right
        simp [errors.Is]
    · simp [Client.GetSuperUsersWithGracefulDegradation, hg] at hr

/-- C8 as stated fails: a Superuser creates a company with the manager list `[2, 2]` while the
identity gateway is degraded; the store's Create receives the list `[2, 2]`, in which
the id 2 occurs twice. -/
theorem C8_counterexample :
    (Service.Create memDecls RangeOrder.insertion (memService (.error degradedError)).recording
        7 "superuser" [2, 2] ([], [])).2.2 =
      [Call.GetSuperUsersWithGracefulDegradation, Call.Create ⟨[2, 2], ()⟩] ∧
    ¬ ([2, 2] : List Int).Nodup := by
  refine ⟨?_, by decide⟩
  simp [Service.Create, memDecls, Service.recording_gateway, memService, fixedGateway,
    degradedError, errors.Is, Service.createStore_recording]

/-- C8, amended: the manager list that Create or Update hands to the store has no id
occurring more than once whenever the identity gateway call succeeded or the manager
list supplied by the caller has none; and when the gateway fails with a tolerated error
(ServiceDegraded or SuperUsersNotFound) the store is called once, with the input exactly
as translated from the request, manager list untouched. -/
theorem C8_no_duplicates_when_enriched (d : Decls CreateReq UpdateReq Resp CF UF KF)
    (ord : RangeOrder) (s : Service σ CF UF KF) (id userID : Int) (userRole : String)
    (creq : CreateReq) (ureq : UpdateReq) (w : σ) :
    (∀ input, Call.Create input ∈
        (Service.Create d ord s.recording userID userRole creq (w, [])).2.2 →
      ((∃ S, (s.userServiceClient.GetSuperUsersWithGracefulDegradation w).1 = .ok S) ∨
        (d.ToDomainCreateInput creq).ManagerIDs.Nodup) →
      input.ManagerIDs.Nodup) ∧
    (∀ id1 input, Call.Update id1 input ∈
        (Service.Update d ord s.recording id userID userRole ureq (w, [])).2.2 →
      ((∃ S, (s.userServiceClient.GetSuperUsersWithGracefulDegradation
          (Service.checkAccess d s id userID userRole w).2).1 = .ok S) ∨
        (d.ToDomainUpdateInput ureq).ManagerIDs.Nodup) →
      input.ManagerIDs.Nodup) ∧
    (∀ e w1, userRole = d.RoleSuperuser →
      s.userServiceClient.GetSuperUsersWithGracefulDegradation w = (.error e, w1) →
      (errors.Is e .userservice_ErrServiceDegraded = true ∨
        errors.Is e .userservice_ErrSuperUsersNotFound = true) →
      (Service.Create d ord s.recording userID userRole creq (w, [])).2.2 =
        [Call.GetSuperUsersWithGracefulDegradation, Call.Create (d.ToDomainCreateInput creq)]) ∧
    (∀ e w0 w1, Service.checkAccess d s id userID userRole w = (none, w0) →
      s.userServiceClient.GetSuperUsersWithGracefulDegradation w0 = (.error e, w1) →
      (errors.Is e .userservice_ErrServiceDegraded = true ∨
        errors.Is e .userservice_ErrSuperUsersNotFound = true) →
      (Service.Update d ord s.recording id userID userRole ureq (w, [])).2.2 =
        (if userRole = d.RoleSuperuser then [] else [Call.IsManager id userID]) ++
          [Call.GetSuperUsersWithGracefulDegradation,
            Call.Update id (d.ToDomainUpdateInput ureq)]) := by
  refine ⟨?_, ?_, ?_, ?_⟩
  · intro input hmem hpre
    by_cases hrole : userRole = d.RoleSuperuser
    swap
    · simp [Service.Create, hrole] at hmem
    · rcases hg : s.userServiceClient.GetSuperUsersWithGracefulDegradation w with ⟨r, w1⟩
      rw [hg] at hpre
      cases r with
      | ok S =>
        simp [Service.Create, hrole, Service.recording_gateway, hg,
          Service.createStore_recording] at hmem
        subst hmem
        exact nodup_mergeManagerIDs ord _ S
      | error e =>
        have hnd : (d.ToDomainCreateInput creq).ManagerIDs.Nodup := by
          rcases hpre with ⟨S, hS⟩ | h
          · cases hS
          · exact h
        by_cases htol : (!errors.Is e .userservice_ErrSuperUsersNotFound &&
            !errors.Is e .userservice_ErrServiceDegraded) = true
        · simp [Service.Create, hrole, Service.recording_gateway, hg, htol] at hmem
        · simp [Service.Create, hrole, Service.recording_gateway, hg, htol,
            Service.createStore_recording] at hmem
          subst hmem
          exact hnd
  · intro id1 input hmem hpre
    rcases hacc : Service.checkAccess d s id userID userRole w with ⟨a, w0⟩
    rw [hacc] at hpre
    cases a with
    | some err =>
      simp [Service.Update, Service.checkAccess_recording, hacc] at hmem
    | none =>
      rcases hg : s.userServiceClient.GetSuperUsersWithGracefulDegradation w0 with ⟨r, w1⟩
      rw [hg] at hpre
      cases r with
      | ok S =>
        by_cases h1 : (d.ToDomainUpdateInput ureq).ManagerIDs.length > 0
        · simp [Service.Update, Service.checkAccess_recording, hacc, Service.recording_gateway,
            hg, h1, Service.updateStore_recording] at hmem
          obtain ⟨_, hmem⟩ := hmem
          subst hmem
          exact nodup_mergeManagerIDs ord _ S
        · by_cases h2 : S.length > 0
          · rcases hget : s.companyRepo.GetByID id w1 with ⟨g, w2⟩
            cases g with
            | ok cur =>
              simp [Service.Update, Service.checkAccess_recording, hacc,
                Service.recording_gateway, hg, h1, h2, Service.recording_GetByID, hget,
                Service.updateStore_recording] at hmem
              obtain ⟨_, hmem⟩ := hmem
              subst hmem
              exact nodup_mergeManagerIDs ord _ S
            | error e =>
              by_cases hnf : errors.Is e .companyRepo_ErrCompanyNotFound = true <;>
                simp [Service.Update, Service.checkAccess_recording, hacc,
                  Service.recording_gateway, hg, h1, h2, Service.recording_GetByID, hget,
                  hnf] at hmem
          · simp [Service.Update, Service.checkAccess_recording, hacc,
              Service.recording_gateway, hg, h1, h2, Service.updateStore_recording] at hmem
            have hnil : (d.ToDomainUpdateInput ureq).ManagerIDs = [] := by
              simpa using h1
            obtain ⟨_, hmem⟩ := hmem
            subst hmem
            simp [hnil]
      | error e =>
        have hnd : (d.ToDomainUpdateInput ureq).ManagerIDs.Nodup := by
          rcases hpre with ⟨S, hS⟩ | h
          · cases hS
          · exact h
        by_cases htol : (!errors.Is e .userservice_ErrSuperUsersNotFound &&
            !errors.Is e .userservice_ErrServiceDegraded) = true
        · simp [Service.Update, Service.checkAccess_recording, hacc, Service.recording_gateway,
            hg, htol] at hmem
        · simp [Service.Update, Service.checkAccess_recording, hacc, Service.recording_gateway,
            hg, htol, Service.updateStore_recording] at hmem
          obtain ⟨_, hmem⟩ := hmem
          subst hmem
          exact hnd
  · intro e w1 hrole hg he
    have htol : (!errors.Is e .userservice_ErrSuperUsersNotFound &&
        !errors.Is e .userservice_ErrServiceDegraded) = false := by
      rcases he with h | h <;> simp [h]
    simp [Service.Create, hrole, Service.recording_gateway, hg, htol,
      Service.createStore_recording]
  · intro e w0 w1 hacc hg he
    have htol : (!errors.Is e .userservice_ErrSuperUsersNotFound &&
        !errors.Is e .userservice_ErrServiceDegraded) = false := by
      rcases he with h | h <;> simp [h]
    simp [Service.Update, Service.checkAccess_recording, hacc, Service.recording_gateway, hg,
      htol, Service.updateStore_recording]

end Claims

/-! ## The claims at concrete inputs -/

/-- C1 at A = [2, 3, 2], B = [1, 2], the map visited in reverse insertion order. -/
theorem C1_mergeManagerIDs_union_witness :
    mergeManagerIDs RangeOrder.reversed [2, 3, 2] [1, 2] = [1, 3, 2] ∧
      (mergeManagerIDs RangeOrder.reversed [2, 3, 2] [1, 2]).count 2 = 1 :=
  ⟨by decide, (C1_mergeManagerIDs_union RangeOrder.reversed [2, 3, 2] [1, 2]).2.1 2 (by decide)⟩

/-- C2 at S = [1, 2], M = [2, 3] on the empty in-memory store: the store receives the
managers 2, 3, 1 and Create returns the projection of the stored company. -/
theorem C2_Create_enriches_witness :
    (memService (.ok [1, 2])).userServiceClient.GetSuperUsersWithGracefulDegradation [] =
        (.ok [1, 2], []) ∧
      (Service.Create memDecls RangeOrder.insertion (memService (.ok [1, 2])).recording
          7 "superuser" [2, 3] ([], [])).2.2 =
        [Call.GetSuperUsersWithGracefulDegradation, Call.Create ⟨[2, 3, 1], ()⟩] ∧
      Service.Create memDecls RangeOrder.insertion (memService (.ok [1, 2])) 7 "superuser"
          [2, 3] [] =
        (.ok (1, [2, 3, 1]), [(1, [2, 3, 1])]) :=
  ⟨rfl,
    (C2_Create_enriches memDecls RangeOrder.insertion (memService (.ok [1, 2])) 7 "superuser"
      [2, 3] [] [] [1, 2] rfl rfl).1,
    (C2_Create_enriches memDecls RangeOrder.insertion (memService (.ok [1, 2])) 7 "superuser"
      [2, 3] [] [] [1, 2] rfl rfl).2.2.2 ⟨[2, 3, 1], 1⟩ [(1, [2, 3, 1])] rfl⟩

/-- C3 at a degraded gateway and the caller's list [3, 2, 3] on the empty in-memory store:
the store receives [3, 2, 3] as it is. -/
theorem C3_Create_degraded_witness :
    errors.Is degradedError .userservice_ErrServiceDegraded = true ∧
      (Service.Create memDecls RangeOrder.insertion (memService (.error degradedError)).recording
          7 "superuser" [3, 2, 3] ([], [])).2.2 =
        [Call.GetSuperUsersWithGracefulDegradation, Call.Create ⟨[3, 2, 3], ()⟩] ∧
      Service.Create memDecls RangeOrder.insertion (memService (.error degradedError)) 7
          "superuser" [3, 2, 3] [] =
        (.ok (1, [3, 2, 3]), [(1, [3, 2, 3])]) :=
  ⟨rfl,
    (C3_Create_degraded memDecls RangeOrder.insertion (memService (.error degradedError)) 7
      "superuser" [3, 2, 3] [] [] degradedError rfl rfl (Or.inl rfl)).1,
    (C3_Create_degraded memDecls RangeOrder.insertion (memService (.error degradedError)) 7
      "superuser" [3, 2, 3] [] [] degradedError rfl rfl (Or.inl rfl)).2.1
      ⟨[3, 2, 3], 1⟩ [(1, [3, 2, 3])] rfl⟩

/-- C4 at company 5 with managers [2, 3], the actor 2 with role "manager", a request without
manager list and S = [9]: the store's Update receives the managers 2, 3, 9. And on the
empty store a Superuser gets CompanyNotFound with no call of the store's Update. -/
theorem C4_Update_merges_current_witness :
    Service.checkAccess memDecls (memService (.ok [9])) 5 2 "manager" [(5, [2, 3])] =
        (none, [(5, [2, 3])]) ∧
      (Service.Update memDecls RangeOrder.insertion (memService (.ok [9])).recording 5 2
          "manager" [] ([(5, [2, 3])], [])).2.2 =
        [Call.IsManager 5 2, Call.GetSuperUsersWithGracefulDegradation, Call.GetByID 5,
          Call.Update 5 ⟨[2, 3, 9], ()⟩] ∧
      Service.Update memDecls RangeOrder.insertion (absentService (.ok [9])) 5 1
          "superuser" [] () =
        (.error (.new .companies_ErrCompanyNotFound), ()) ∧
      (Service.Update memDecls RangeOrder.insertion (absentService (.ok [9])).recording 5 1
          "superuser" [] ((), [])).2.2 =
        [Call.GetSuperUsersWithGracefulDegradation, Call.GetByID 5] :=
  ⟨by decide,
    ((C4_Update_merges_current memDecls RangeOrder.insertion (memService (.ok [9])) 5 2
      "manager" [] [(5, [2, 3])] [(5, [2, 3])] [(5, [2, 3])] [9] (by decide) rfl rfl
      (by decide)).1 ⟨[2, 3], 5⟩ [(5, [2, 3])] rfl).1,
    ((C4_Update_merges_current memDecls RangeOrder.insertion (absentService (.ok [9])) 5 1
      "superuser" [] () () () [9] (by decide) rfl rfl (by decide)).2
      (.new .companyRepo_ErrCompanyNotFound) () rfl rfl).1,
    ((C4_Update_merges_current memDecls RangeOrder.insertion (absentService (.ok [9])) 5 1
      "superuser" [] () () () [9] (by decide) rfl rfl (by decide)).2
      (.new .companyRepo_ErrCompanyNotFound) () rfl rfl).2⟩

/-- C5 at company 5 with managers [2, 3] and the actor 4 with role "manager". -/
theorem C5_Update_access_denied_witness :
    (memService (.ok [9])).companyRepo.IsManager 5 4 [(5, [2, 3])] =
        (.ok false, [(5, [2, 3])]) ∧
      Service.Update memDecls RangeOrder.insertion (memService (.ok [9])) 5 4 "manager" [4]
          [(5, [2, 3])] =
        (.error (.new .companies_ErrAccessDenied), [(5, [2, 3])]) ∧
      (Service.Update memDecls RangeOrder.insertion (memService (.ok [9])).recording 5 4
          "manager" [4] ([(5, [2, 3])], [])).2.2 = [Call.IsManager 5 4] :=
  ⟨rfl,
    C5_Update_access_denied memDecls RangeOrder.insertion (memService (.ok [9])) 5 4 "manager"
      [4] [(5, [2, 3])] [(5, [2, 3])] (by decide) rfl⟩

/-- C6 at the actor 2 with role "manager", who is a manager of company 5. -/
theorem C6_Create_Delete_superuser_only_witness :
    (memService (.ok [9])).companyRepo.IsManager 5 2 [(5, [2, 3])] =
        (.ok true, [(5, [2, 3])]) ∧
      Service.Create memDecls RangeOrder.insertion (memService (.ok [9])) 2 "manager" [2]
          [(5, [2, 3])] =
        (.error (.new .companies_ErrOnlySuperuser), [(5, [2, 3])]) ∧
      Service.Delete memDecls (memService (.ok [9])) 5 2 "manager" [(5, [2, 3])] =
        (some (.new .companies_ErrOnlySuperuser), [(5, [2, 3])]) :=
  ⟨rfl,
    (C6_Create_Delete_superuser_only memDecls RangeOrder.insertion (memService (.ok [9])) 5 2
      "manager" [2] [(5, [2, 3])] (by decide)).1,
    (C6_Create_Delete_superuser_only memDecls RangeOrder.insertion (memService (.ok [9])) 5 2
      "manager" [2] [(5, [2, 3])] (by decide)).2.2.1⟩

/-- C7 at company 5 on the in-memory store that holds only company 6: with a degraded gateway
and a request that carries managers, and with a gateway that answers [9] and a request
without manager list (the path that reads the company first). -/
theorem C7_absent_company_witness :
    (Service.GetByID memDecls (memService (.error degradedError)) 5 [(6, [1])]).1 =
        .error (.new .companies_ErrCompanyNotFound) ∧
      (Service.Delete memDecls (memService (.error degradedError)) 5 1 "superuser"
          [(6, [1])]).1 =
        some (.new .companies_ErrCompanyNotFound) ∧
      (Service.Update memDecls RangeOrder.insertion (memService (.error degradedError)) 5 1
          "superuser" [4] [(6, [1])]).1 =
        .error (.new .companies_ErrCompanyNotFound) ∧
      (Service.Update memDecls RangeOrder.insertion (memService (.error degradedError)) 5 1
          "manager" [4] [(6, [1])]).1 =
        .error (.new .companies_ErrCompanyNotFound) ∧
      (Service.Update memDecls RangeOrder.insertion (memService (.ok [9])) 5 1
          "superuser" [] [(6, [1])]).1 =
        .error (.new .companies_ErrCompanyNotFound) :=
  have h := C7_absent_company memDecls (memService (.error degradedError)) 5 [(6, [1])]
    ⟨_, _, rfl, rfl⟩ ⟨_, _, rfl, rfl⟩ (fun _ => ⟨_, _, rfl, rfl⟩)
    (fun e he => by
      have hd : degradedError = e := Except.error.inj he
      subst hd
      exact Or.inr rfl)
    ⟨_, _, rfl, rfl⟩ (fun _ => ⟨_, _, rfl, rfl⟩)
  have h9 := C7_absent_company memDecls (memService (.ok [9])) 5 [(6, [1])]
    ⟨_, _, rfl, rfl⟩ ⟨_, _, rfl, rfl⟩ (fun _ => ⟨_, _, rfl, rfl⟩)
    (fun e he => by simp [memService, fixedGateway] at he)
    ⟨_, _, rfl, rfl⟩ (fun _ => ⟨_, _, rfl, rfl⟩)
  ⟨h.1, h.2.1 1, h.2.2 RangeOrder.insertion 1 "superuser" [4],
    h.2.2 RangeOrder.insertion 1 "manager" [4],
    h9.2.2 RangeOrder.insertion 1 "superuser" []⟩

/-- C8 (amended) at four inputs. Create with the list [2, 2, 3] and the gateway answer
[1, 2]: the store receives [2, 3, 1]. Update of company 5 by its manager 2 with the list
[3, 3] and the gateway answer [9]: the store receives [3, 9]. Create with [2, 2] and
Update with [4, 4] while the gateway is degraded: the store receives [2, 2] and
[4, 4]. -/
theorem C8_no_duplicates_when_enriched_witness :
    (Call.Create ⟨[2, 3, 1], ()⟩ ∈
        (Service.Create memDecls RangeOrder.insertion (memService (.ok [1, 2])).recording
          7 "superuser" [2, 2, 3] ([], [])).2.2 ∧
      (⟨[2, 3, 1], ()⟩ : CreateCompanyInput Unit).ManagerIDs.Nodup) ∧
    (Call.Update 5 ⟨[3, 9], ()⟩ ∈
        (Service.Update memDecls RangeOrder.insertion (memService (.ok [9])).recording
          5 2 "manager" [3, 3] ([(5, [2, 3])], [])).2.2 ∧
      (⟨[3, 9], ()⟩ : UpdateCompanyInput Unit).ManagerIDs.Nodup) ∧
    (Service.Create memDecls RangeOrder.insertion (memService (.error degradedError)).recording
        7 "superuser" [2, 2] ([], [])).2.2 =
      [Call.GetSuperUsersWithGracefulDegradation, Call.Create ⟨[2, 2], ()⟩] ∧
    (Service.Update memDecls RangeOrder.insertion (memService (.error degradedError)).recording
        5 2 "manager" [4, 4] ([(5, [2, 3])], [])).2.2 =
      [Call.IsManager 5 2, Call.GetSuperUsersWithGracefulDegradation,
        Call.Update 5 ⟨[4, 4], ()⟩] :=
  ⟨⟨by decide,
      (C8_no_duplicates_when_enriched memDecls RangeOrder.insertion (memService (.ok [1, 2]))
        5 7 "superuser" [2, 2, 3] [] []).1 ⟨[2, 3, 1], ()⟩ (by decide) (Or.inl ⟨[1, 2], rfl⟩)⟩,
    ⟨by decide,
      (C8_no_duplicates_when_enriched memDecls RangeOrder.insertion (memService (.ok [9]))
        5 2 "manager" [] [3, 3] [(5, [2, 3])]).2.1 5 ⟨[3, 9], ()⟩ (by decide)
        (Or.inl ⟨[9], rfl⟩)⟩,
    (C8_no_duplicates_when_enriched memDecls RangeOrder.insertion
      (memService (.error degradedError)) 5 7 "superuser" [2, 2] [] []).2.2.1
      degradedError [] rfl rfl (Or.inl rfl),
    (C8_no_duplicates_when_enriched memDecls RangeOrder.insertion
      (memService (.error degradedError)) 5 2 "manager" [] [4, 4] [(5, [2, 3])]).2.2.2
      degradedError [(5, [2, 3])] [(5, [2, 3])] (by decide) rfl (Or.inl rfl)⟩

/-- C9 at company 5 with managers [2, 3] and the actor 4 with role "manager". -/
theorem C9_checkAccess_table_witness :
    (memService (.ok [9])).companyRepo.IsManager 5 4 [(5, [2, 3])] =
        (.ok false, [(5, [2, 3])]) ∧
      Service.checkAccess memDecls (memService (.ok [9])) 5 4 "manager" [(5, [2, 3])] =
        (some (.new .companies_ErrAccessDenied), [(5, [2, 3])]) :=
  ⟨rfl,
    ((C9_checkAccess_table memDecls (memService (.ok [9])) 5 4 "manager" [(5, [2, 3])]).2
      (by decide)).2.2.2.1 [(5, [2, 3])] rfl⟩

/-- C10 at an upstream that answers 404, and at one that answers 500. -/
theorem C10_graceful_degradation_witness :
    (stubClient 404).GetSuperUsers = .error (.new .userservice_ErrSuperUsersNotFound) ∧
      (∃ r, (stubClient 404).GetSuperUsersWithGracefulDegradation = .error r ∧
        errors.Is r .userservice_ErrSuperUsersNotFound = true ∧
        errors.Is r .userservice_ErrServiceDegraded = false) ∧
      (∃ r, (stubClient 500).GetSuperUsersWithGracefulDegradation = .error r ∧
        errors.Is r .userservice_ErrServiceDegraded = true ∧
        errors.Is r .userservice_ErrSuperUsersNotFound = false) :=
  ⟨rfl,
    (C10_graceful_degradation (stubClient 404)).2.1
      (.new .userservice_ErrSuperUsersNotFound) rfl rfl,
    (C10_graceful_degradation (stubClient 500)).2.2.1
      (.Errorf1 "%w: unexpected status code %d: %s" (.new .userservice_ErrInvalidResponse)
        [toString (500 : Int), "body"]) rfl rfl⟩

end SellerService
